import Mathlib

/-!
Verification of src/prepare_data_nnunet.py against its specification.

The script converts a directory of paired TIF image/mask slices into the
nnU-Net layout: it provisions an output directory tree, writes a skeleton
manifest, enumerates and sorts the inputs, converts each pair to NIfTI and
finalizes the manifest.

Shallow embedding conventions:
- a filesystem path is modelled as its list of components (FPath);
  os.path.join with a single trailing name appends one component;
- the readable world (which paths are directories, what they list, and
  whether a given SimpleITK read/write conversion succeeds) is a World;
- the writes performed by the run are collected chronologically in an
  OutFS; the content of a destination file after the run is the last
  write to its path (OutFS.fileAt);
- a converted NIfTI file is represented by the source path it was
  converted from (FileData.image), since the script copies the image data
  unchanged through SimpleITK;
- Python exceptions become values of RunError, and the incompletely mutated
  state at the moment the exception escapes is returned alongside.
-/

/-- A filesystem path, as its list of components. -/
abbrev FPath := List String

/-- Rendering of a path for error messages, components joined by a slash,
mirroring how the Python code interpolates the directory string into the
FileNotFoundError message. -/
def FPath.render : FPath → String
  | [] => ""
  | [c] => c
  | c :: rest => c ++ "/" ++ FPath.render rest

/-- Models os.path.join(a, b) for the uses in the script, where b is always
a single file or directory name. -/
def osPathJoin (a : FPath) (b : String) : FPath := a ++ [b]

/-- What the filesystem shows at a given path: whether os.path.isdir holds,
and what os.listdir returns (in arbitrary filesystem enumeration order). -/
structure InputDir where
  isDir : Bool
  listing : List String

/-- The read-only environment of a run: the directory structure visible to
the script, and whether the SimpleITK read/write pair for a given source
and destination path succeeds (models sitk.ReadImage/sitk.WriteImage
raising on malformed sources or unwritable destinations). -/
structure World where
  fs : FPath → InputDir
  convOk : FPath → FPath → Bool

/-- One entry of the manifest training list. -/
structure TrainingEntry where
  image : String
  label : String
deriving DecidableEq

/-- The in-memory dataset.json dictionary built by create_dataset_json. -/
structure DatasetJson where
  name : String
  description : String
  reference : String
  licence : String
  release : String
  tensorImageSize : String
  modality : List (String × String)
  labels : List (String × String)
  task : String
  numTraining : Nat
  numTest : Nat
  training : List TrainingEntry
  test : List TrainingEntry
deriving DecidableEq

/-- Content of a file written by the run: either a serialized manifest or a
converted image, identified by the source path it was converted from. -/
inductive FileData where
  | json (d : DatasetJson)
  | image (src : FPath)
deriving DecidableEq

/-- The write effects of a run: directories created (in order of the
os.makedirs calls) and file writes (in chronological order). -/
structure OutFS where
  dirsMade : List FPath
  writes : List (FPath × FileData)
deriving DecidableEq

def OutFS.empty : OutFS := ⟨[], []⟩

/-- Models os.makedirs(p, exist_ok=True): records the creation request;
a pre-existing directory is never an error. -/
def OutFS.mkdir (o : OutFS) (p : FPath) : OutFS :=
  { o with dirsMade := o.dirsMade ++ [p] }

/-- Models an unconditional (overwriting) file write. -/
def OutFS.write (o : OutFS) (p : FPath) (d : FileData) : OutFS :=
  { o with writes := o.writes ++ [(p, d)] }

/-- The content a path holds after the run: the last write to it, if any. -/
def OutFS.fileAt (o : OutFS) (p : FPath) : Option FileData :=
  (o.writes.reverse.find? (fun w => decide (w.1 = p))).map (fun w => w.2)

/-- Python exceptions raised by the script. -/
inductive RunError where
  | fileNotFound (msg : String)
  | valueError (msg : String)
  | convError (src : FPath) (dst : FPath)
deriving DecidableEq

/-- Models Python str.lower for the characters this data uses (ASCII). -/
def strLower (s : String) : String := ⟨s.data.map Char.toLower⟩

/-- Models Python str.endswith: suffix test on the character sequence. -/
def pyEndsWith (s suffix : String) : Bool := suffix.data.isSuffixOf s.data

/-- Lexicographic comparison of character sequences by code point, the
order Python uses to compare strings. -/
def lexLe : List Char → List Char → Bool
  | [], _ => true
  | _ :: _, [] => false
  | a :: as, b :: bs => if a = b then lexLe as bs else decide (a < b)

/-- Models Python string comparison a <= b (code-point lexicographic). -/
def pyStrLe (a b : String) : Bool := lexLe a.data b.data

/-- The sorting relation used to model Python sorted on filenames. -/
def pyLeRel : String → String → Prop := fun a b => pyStrLe a b = true

instance : DecidableRel pyLeRel :=
  fun a b => inferInstanceAs (Decidable (pyStrLe a b = true))

/-- Embedding of create_dataset_json (lines 6-27): builds the skeleton
manifest dictionary and writes it to output_dir/dataset.json. -/
def create_dataset_json (o : OutFS) (output_dir : FPath) (modality_names : List String)
    (labels : List (String × String)) (dataset_name : String) : OutFS × DatasetJson :=
  let dataset_json : DatasetJson := {
    name := "ROI Dataset"
    description := "Converted ROI segmentation dataset"
    reference := "None"
    licence := "None"
    release := "1.0"
    tensorImageSize := "4D"
    modality := modality_names.enum.map (fun im => (toString im.1, im.2))
    labels := labels
    task := dataset_name
    numTraining := 0
    numTest := 0
    training := []
    test := [] }
  (o.write (osPathJoin output_dir "dataset.json") (.json dataset_json), dataset_json)

/-- The three nnU-Net subdirectories returned by setup_directories. -/
structure NnDirs where
  imagesTr : FPath
  labelsTr : FPath
  imagesTs : FPath
deriving DecidableEq

/-- Embedding of setup_directories (lines 29-40): creates the three fixed
subdirectories under base_dir with exist_ok semantics. -/
def setup_directories (o : OutFS) (base_dir : FPath) : OutFS × NnDirs :=
  let dirs : NnDirs := {
    imagesTr := osPathJoin base_dir "imagesTr"
    labelsTr := osPathJoin base_dir "labelsTr"
    imagesTs := osPathJoin base_dir "imagesTs" }
  (((o.mkdir dirs.imagesTr).mkdir dirs.labelsTr).mkdir dirs.imagesTs, dirs)

/-- Embedding of get_file_list (lines 42-48): raises FileNotFoundError when
the path is not a directory, otherwise returns the names in the listing
ending (case-insensitively) with the extension, sorted as Python sorted
sorts strings. -/
def get_file_list (w : World) (directory : FPath) (extension : String) :
    Except RunError (List String) :=
  if !(w.fs directory).isDir then
    .error (.fileNotFound ("Directory not found: " ++ directory.render))
  else
    .ok (List.insertionSort pyLeRel
      ((w.fs directory).listing.filter
        (fun f => pyEndsWith (strLower f) (strLower extension))))

/-- Embedding of convert_tif_to_nifti (lines 50-56): reads the source image
and writes it at the destination, propagating any SimpleITK error. -/
def convert_tif_to_nifti (w : World) (o : OutFS) (tif_path output_path : FPath) :
    Except RunError (OutFS × FPath) :=
  if w.convOk tif_path output_path then
    .ok (o.write output_path (.image tif_path), output_path)
  else
    .error (.convError tif_path output_path)

/-- Models the Python format f-string case_(idx:04d) zero padding. -/
def zeroPad4 (n : Nat) : String :=
  let s := toString n
  if s.length < 4 then ⟨List.replicate (4 - s.length) '0'⟩ ++ s else s

/-- The case identifier assigned to pair idx (line 88). -/
def caseId (idx : Nat) : String := "case_" ++ zeroPad4 idx

/-- Destination path of the converted image of pair idx (line 92). -/
def dstDataPath (dirs : NnDirs) (idx : Nat) : FPath :=
  osPathJoin dirs.imagesTr (caseId idx ++ "_0000.nii.gz")

/-- Destination path of the converted mask of pair idx (line 94). -/
def dstMaskPath (dirs : NnDirs) (idx : Nat) : FPath :=
  osPathJoin dirs.labelsTr (caseId idx ++ ".nii.gz")

/-- The training entry appended for pair idx (lines 101-104). -/
def trainingEntry (idx : Nat) : TrainingEntry :=
  { image := "./imagesTr/" ++ caseId idx ++ "_0000.nii.gz"
    label := "./labelsTr/" ++ caseId idx ++ ".nii.gz" }

/-- Embedding of the conversion loop of convert_to_nnunet_format
(lines 87-104), aborting with the incompletely mutated state when a
conversion raises. -/
def convertLoop (w : World) (input_data_dir input_mask_dir : FPath) (dirs : NnDirs) :
    List (String × String) → Nat → OutFS → DatasetJson →
      (OutFS × DatasetJson) × Option RunError
  | [], _, o, dj => ((o, dj), none)
  | (data_file, mask_file) :: rest, idx, o, dj =>
    let case_id := caseId idx
    let src_data_path := osPathJoin input_data_dir data_file
    let dst_data_path := dstDataPath dirs idx
    let src_mask_path := osPathJoin input_mask_dir mask_file
    let dst_mask_path := dstMaskPath dirs idx
    match convert_tif_to_nifti w o src_data_path dst_data_path with
    | .error e => ((o, dj), some e)
    | .ok (o1, _) =>
      match convert_tif_to_nifti w o1 src_mask_path dst_mask_path with
      | .error e => ((o1, dj), some e)
      | .ok (o2, _) =>
        let dj2 := { dj with training := dj.training ++
          [{ image := "./imagesTr/" ++ case_id ++ "_0000.nii.gz",
             label := "./labelsTr/" ++ case_id ++ ".nii.gz" }] }
        convertLoop w input_data_dir input_mask_dir dirs rest (idx + 1) o2 dj2

/-- Embedding of convert_to_nnunet_format (lines 58-114). The Python
default dataset_name Task001_ROISegmentation is passed explicitly. -/
def convert_to_nnunet_format (w : World) (o0 : OutFS)
    (input_data_dir input_mask_dir output_base_dir : FPath) (dataset_name : String) :
    OutFS × Option RunError :=
  let dataset_dir := osPathJoin output_base_dir dataset_name
  let oA := o0.mkdir dataset_dir
  let sd := setup_directories oA dataset_dir
  let dirs := sd.2
  let modality_names := ["CT"]
  let labels : List (String × String) := [("0", "background"), ("1", "roi")]
  let cj := create_dataset_json sd.1 dataset_dir modality_names labels dataset_name
  match get_file_list w input_data_dir ".tif" with
  | .error e => (cj.1, some e)
  | .ok data_files =>
    match get_file_list w input_mask_dir ".tif" with
    | .error e => (cj.1, some e)
    | .ok mask_files =>
      if data_files.length ≠ mask_files.length then
        (cj.1, some (.valueError ("Number of images (" ++ toString data_files.length ++
          ") and masks (" ++ toString mask_files.length ++ ") do not match.")))
      else
        match convertLoop w input_data_dir input_mask_dir dirs
            (data_files.zip mask_files) 0 cj.1 cj.2 with
        | ((o4, _dj), some e) => (o4, some e)
        | ((o4, dj), none) =>
          let dj2 := { dj with numTraining := data_files.length }
          (o4.write (osPathJoin dataset_dir "dataset.json") (.json dj2), none)

/-- The dataset root directory of a run. -/
def datasetDir (output_base_dir : FPath) (dataset_name : String) : FPath :=
  osPathJoin output_base_dir dataset_name

/-- The path of the manifest file of a run. -/
def djsonPath (output_base_dir : FPath) (dataset_name : String) : FPath :=
  osPathJoin (datasetDir output_base_dir dataset_name) "dataset.json"

/-- The three subdirectory paths a run provisions. -/
def nnDirsFor (output_base_dir : FPath) (dataset_name : String) : NnDirs :=
  (setup_directories OutFS.empty (datasetDir output_base_dir dataset_name)).2

/-- The manifest skeleton as first written at orchestration start. -/
def initSkeleton (dataset_name : String) : DatasetJson :=
  (create_dataset_json OutFS.empty [] ["CT"] [("0", "background"), ("1", "roi")]
    dataset_name).2

/-- The manifest content persisted by a successful run over n pairs. -/
def finalJson (dataset_name : String) (n : Nat) : DatasetJson :=
  { initSkeleton dataset_name with
      numTraining := n
      training := (List.range n).map trainingEntry }

/-- Whether the conversion of one pair at a given index succeeds. -/
def pairOk (w : World) (input_data_dir input_mask_dir : FPath) (dirs : NnDirs)
    (idx : Nat) (p : String × String) : Bool :=
  w.convOk (osPathJoin input_data_dir p.1) (dstDataPath dirs idx) &&
  w.convOk (osPathJoin input_mask_dir p.2) (dstMaskPath dirs idx)

/-- Whether every pair conversion of the loop succeeds. -/
def loopOk (w : World) (input_data_dir input_mask_dir : FPath) (dirs : NnDirs) :
    List (String × String) → Nat → Bool
  | [], _ => true
  | p :: rest, idx =>
    pairOk w input_data_dir input_mask_dir dirs idx p &&
    loopOk w input_data_dir input_mask_dir dirs rest (idx + 1)

/-- The file writes a fully successful loop performs. -/
def loopWrites (input_data_dir input_mask_dir : FPath) (dirs : NnDirs) :
    List (String × String) → Nat → List (FPath × FileData)
  | [], _ => []
  | p :: rest, idx =>
    (dstDataPath dirs idx, .image (osPathJoin input_data_dir p.1)) ::
    (dstMaskPath dirs idx, .image (osPathJoin input_mask_dir p.2)) ::
    loopWrites input_data_dir input_mask_dir dirs rest (idx + 1)

/-- The filename filter predicate of get_file_list. -/
def extFilter (extension : String) (f : String) : Bool :=
  pyEndsWith (strLower f) (strLower extension)

/-- The last write to a path in a chronological write list. -/
def lastWrite (ws : List (FPath × FileData)) (p : FPath) : Option FileData :=
  (ws.reverse.find? (fun w => decide (w.1 = p))).map (fun w => w.2)

/-- The output state after provisioning and manifest initialization
(the state the run has reached when get_file_list is first called). -/
def initOut (o : OutFS) (output_base_dir : FPath) (dataset_name : String) : OutFS :=
  ⟨o.dirsMade ++ [datasetDir output_base_dir dataset_name,
      (nnDirsFor output_base_dir dataset_name).imagesTr,
      (nnDirsFor output_base_dir dataset_name).labelsTr,
      (nnDirsFor output_base_dir dataset_name).imagesTs],
   o.writes ++ [(djsonPath output_base_dir dataset_name, .json (initSkeleton dataset_name))]⟩

instance {e a : Type} [DecidableEq e] [DecidableEq a] : DecidableEq (Except e a) := fun x y =>
  match x, y with
  | .ok u, .ok v => decidable_of_iff (u = v) (by simp)
  | .error u, .error v => decidable_of_iff (u = v) (by simp)
  | .ok u, .error v => isFalse (by simp)
  | .error u, .ok v => isFalse (by simp)

/-- A world in which no path is a directory. -/
def wNoDirs : World := ⟨fun _ => ⟨false, []⟩, fun _ _ => true⟩

/-- A world with five image files and four mask files, all conversions fine. -/
def wFiveFour : World :=
  ⟨fun p => if p = ["img"] then ⟨true, ["b.tif", "a.tif", "c.tif", "d.tif", "e.tif"]⟩
            else if p = ["msk"] then ⟨true, ["y.tif", "x.tif", "w.tif", "v.tif"]⟩
            else ⟨false, []⟩,
   fun _ _ => true⟩

/-- A world with two image/mask pairs listed out of order, all conversions fine. -/
def wTwoPairs : World :=
  ⟨fun p => if p = ["img"] then ⟨true, ["b.tif", "a.tif", "note.txt"]⟩
            else if p = ["msk"] then ⟨true, ["y.TIF", "x.tif"]⟩
            else ⟨false, []⟩,
   fun _ _ => true⟩

/-- The same directories as wTwoPairs with the listings permuted. -/
def wTwoPairsPerm : World :=
  ⟨fun p => if p = ["img"] then ⟨true, ["a.tif", "note.txt", "b.tif"]⟩
            else if p = ["msk"] then ⟨true, ["x.tif", "y.TIF"]⟩
            else ⟨false, []⟩,
   fun _ _ => true⟩

/-- A world with two pairs in which the mask conversion of the second pair
(case 0001) fails and every other conversion succeeds. -/
def wMaskFail : World :=
  ⟨fun p => if p = ["img"] then ⟨true, ["b.tif", "a.tif"]⟩
            else if p = ["msk"] then ⟨true, ["y.tif", "x.tif"]⟩
            else ⟨false, []⟩,
   fun src dst => if src = ["msk", "y.tif"] ∧ dst = dstMaskPath (nnDirsFor ["out"] "T") 1
                  then false else true⟩


theorem lexLe_iff : ∀ as bs : List Char, lexLe as bs = true ↔ ¬ List.Lex (· < ·) bs as
  | [], bs => by
    simp [lexLe]
  | a :: as, [] => by
    simp [lexLe]
    exact List.Lex.nil
  | a :: as, b :: bs => by
    by_cases hab : a = b
    · subst hab
      rw [show lexLe (a :: as) (a :: bs) = lexLe as bs by simp [lexLe]]
      rw [lexLe_iff as bs]
      exact not_congr List.Lex.cons_iff |>.symm
    · rw [show lexLe (a :: as) (b :: bs) = decide (a < b) by simp [lexLe, hab]]
      simp only [decide_eq_true_eq]
      constructor
      · intro h hlex
        cases hlex with
        | cons h2 => exact hab rfl
        | rel h2 => exact absurd h (lt_asymm h2)
      · intro h
        have hba : ¬ b < a := fun hba => h (List.Lex.rel hba)
        exact lt_of_le_of_ne (not_lt.mp hba) hab

theorem pyStrLe_iff (a b : String) : pyStrLe a b = true ↔ a ≤ b := by
  rw [pyStrLe, lexLe_iff, String.le_iff_toList_le]
  rw [← not_lt]
  constructor
  · intro h h2
    exact h h2
  · intro h h2
    exact h h2

instance : IsTotal String pyLeRel :=
  ⟨fun a b => by
    simp only [pyLeRel, pyStrLe_iff]
    exact le_total a b⟩

instance : IsTrans String pyLeRel :=
  ⟨fun a b c h1 h2 => by
    simp only [pyLeRel, pyStrLe_iff] at h1 h2 ⊢
    exact le_trans h1 h2⟩

instance : IsAntisymm String pyLeRel :=
  ⟨fun a b h1 h2 => by
    simp only [pyLeRel, pyStrLe_iff] at h1 h2
    exact le_antisymm h1 h2⟩

theorem get_file_list_of_isDir_false (w : World) (d : FPath) (ext : String)
    (h : (w.fs d).isDir = false) :
    get_file_list w d ext = .error (.fileNotFound ("Directory not found: " ++ d.render)) := by
  simp [get_file_list, h]

theorem get_file_list_of_isDir_true (w : World) (d : FPath) (ext : String)
    (h : (w.fs d).isDir = true) :
    get_file_list w d ext =
      .ok (List.insertionSort pyLeRel ((w.fs d).listing.filter (extFilter ext))) := by
  rw [get_file_list, if_neg (by simp [h])]
  rfl

theorem get_file_list_ok_inv (w : World) (d : FPath) (ext : String) (l : List String)
    (h : get_file_list w d ext = .ok l) :
    (w.fs d).isDir = true ∧
      l = List.insertionSort pyLeRel ((w.fs d).listing.filter (extFilter ext)) := by
  by_cases hd : (w.fs d).isDir = true
  · rw [get_file_list_of_isDir_true w d ext hd] at h
    exact ⟨hd, (Except.ok.inj h).symm⟩
  · rw [get_file_list_of_isDir_false w d ext (by simpa using hd)] at h
    exact absurd h (by simp)

theorem sorted_le_of_sorted_pyLeRel {l : List String} (h : l.Sorted pyLeRel) :
    l.Sorted (· ≤ ·) :=
  h.imp (fun hab => (pyStrLe_iff _ _).mp hab)

theorem insertionSort_eq_of_perm {l1 l2 : List String} (h : l1.Perm l2) :
    List.insertionSort pyLeRel l1 = List.insertionSort pyLeRel l2 :=
  List.eq_of_perm_of_sorted
    ((List.perm_insertionSort _ _).trans (h.trans (List.perm_insertionSort _ _).symm))
    (List.sorted_insertionSort _ _) (List.sorted_insertionSort _ _)

theorem get_file_list_congr (w1 w2 : World) (d : FPath) (ext : String)
    (hdir : (w1.fs d).isDir = (w2.fs d).isDir)
    (hperm : (w1.fs d).listing.Perm (w2.fs d).listing) :
    get_file_list w1 d ext = get_file_list w2 d ext := by
  by_cases h : (w1.fs d).isDir = true
  · rw [get_file_list_of_isDir_true w1 d ext h,
      get_file_list_of_isDir_true w2 d ext (hdir ▸ h)]
    exact congrArg _ (insertionSort_eq_of_perm (hperm.filter _))
  · have h1 : (w1.fs d).isDir = false := by simpa using h
    rw [get_file_list_of_isDir_false w1 d ext h1,
      get_file_list_of_isDir_false w2 d ext (hdir ▸ h1)]

theorem fileAt_eq_lastWrite (o : OutFS) (p : FPath) :
    o.fileAt p = lastWrite o.writes p := rfl

theorem lastWrite_append (ws1 ws2 : List (FPath × FileData)) (p : FPath) :
    lastWrite (ws1 ++ ws2) p =
      match lastWrite ws2 p with
      | some v => some v
      | none => lastWrite ws1 p := by
  simp only [lastWrite, List.reverse_append, List.find?_append]
  cases h : ws2.reverse.find? (fun w => decide (w.1 = p)) <;>
    simp [h, Option.orElse]

theorem lastWrite_singleton_self (p : FPath) (v : FileData) :
    lastWrite [(p, v)] p = some v := by
  simp [lastWrite]

theorem lastWrite_eq_none (ws : List (FPath × FileData)) (p : FPath)
    (h : ∀ e ∈ ws, e.1 ≠ p) : lastWrite ws p = none := by
  simp only [lastWrite]
  rw [List.find?_eq_none.mpr]
  · rfl
  · intro e he
    simpa using h e (List.mem_reverse.mp he)

theorem loopWrites_paths (a b : FPath) (dirs : NnDirs) :
    ∀ (pairs : List (String × String)) (idx : Nat), ∀ e ∈ loopWrites a b dirs pairs idx,
      (∃ s, e.1 = osPathJoin dirs.imagesTr s) ∨ (∃ s, e.1 = osPathJoin dirs.labelsTr s)
  | [], idx => by simp [loopWrites]
  | p :: rest, idx => by
    intro e he
    simp only [loopWrites, List.mem_cons] at he
    rcases he with rfl | rfl | he
    · exact Or.inl ⟨_, rfl⟩
    · exact Or.inr ⟨_, rfl⟩
    · exact loopWrites_paths a b dirs rest (idx + 1) e he

theorem subPath_ne_file (base : FPath) (c s fname : String) :
    osPathJoin (osPathJoin base c) s ≠ osPathJoin base fname := by
  intro h
  have h2 := congrArg List.length h
  simp [osPathJoin] at h2

theorem convertLoop_ok (w : World) (a b : FPath) (dirs : NnDirs) :
    ∀ (pairs : List (String × String)) (idx : Nat) (o : OutFS) (dj : DatasetJson),
      loopOk w a b dirs pairs idx = true →
      convertLoop w a b dirs pairs idx o dj =
        ((⟨o.dirsMade, o.writes ++ loopWrites a b dirs pairs idx⟩,
          { dj with training := dj.training ++
              (List.range pairs.length).map (fun j => trainingEntry (idx + j)) }), none)
  | [], idx, o, dj, h => by
    simp [convertLoop, loopWrites]
  | (df, mf) :: rest, idx, o, dj, h => by
    simp only [loopOk, pairOk, Bool.and_eq_true] at h
    obtain ⟨⟨h1, h2⟩, h3⟩ := h
    simp only [convertLoop, convert_tif_to_nifti, h1, h2, if_true]
    rw [convertLoop_ok w a b dirs rest (idx + 1) _ _ h3]
    have hfn : ((fun j => trainingEntry (idx + j)) ∘ Nat.succ) =
        (fun j => trainingEntry (idx + 1 + j)) := by
      funext j
      simp only [Function.comp_apply]
      congr 1
      omega
    simp only [OutFS.write, loopWrites, List.length_cons, List.append_assoc,
      List.cons_append, List.nil_append, List.range_succ_eq_map, List.map_cons,
      List.map_map, Nat.add_zero]
    rw [hfn]
    simp only [trainingEntry]

theorem convertLoop_isSome_of_not_ok (w : World) (a b : FPath) (dirs : NnDirs) :
    ∀ (pairs : List (String × String)) (idx : Nat) (o : OutFS) (dj : DatasetJson),
      loopOk w a b dirs pairs idx = false →
      ((convertLoop w a b dirs pairs idx o dj).2).isSome = true
  | [], idx, o, dj, h => by simp [loopOk] at h
  | (df, mf) :: rest, idx, o, dj, h => by
    simp only [loopOk, pairOk, Bool.and_eq_false_iff] at h
    by_cases h1 : w.convOk (osPathJoin a df) (dstDataPath dirs idx) = true
    · by_cases h2 : w.convOk (osPathJoin b mf) (dstMaskPath dirs idx) = true
      · have h3 : loopOk w a b dirs rest (idx + 1) = false := by
          rcases h with h | h
          · rcases h with h | h
            · exact absurd h1 (by simp [h])
            · exact absurd h2 (by simp [h])
          · exact h
        simp only [convertLoop, convert_tif_to_nifti, h1, h2, if_true]
        exact convertLoop_isSome_of_not_ok w a b dirs rest (idx + 1) _ _ h3
      · simp [convertLoop, convert_tif_to_nifti, h1, h2]
    · simp [convertLoop, convert_tif_to_nifti, h1]

theorem convertLoop_fail_at (w : World) (a b : FPath) (dirs : NnDirs) :
    ∀ (pairs : List (String × String)) (i idx : Nat) (o : OutFS) (dj : DatasetJson)
      (hi : i < pairs.length),
      loopOk w a b dirs (pairs.take i) idx = true →
      (w.convOk (osPathJoin a pairs[i].1) (dstDataPath dirs (idx + i)) = false ∨
        (w.convOk (osPathJoin a pairs[i].1) (dstDataPath dirs (idx + i)) = true ∧
         w.convOk (osPathJoin b pairs[i].2) (dstMaskPath dirs (idx + i)) = false)) →
      convertLoop w a b dirs pairs idx o dj =
        ((⟨o.dirsMade,
           o.writes ++ loopWrites a b dirs (pairs.take i) idx ++
             (if w.convOk (osPathJoin a pairs[i].1) (dstDataPath dirs (idx + i)) then
               [(dstDataPath dirs (idx + i), .image (osPathJoin a pairs[i].1))]
             else [])⟩,
          { dj with training := dj.training ++
              (List.range i).map (fun j => trainingEntry (idx + j)) }),
         some (if w.convOk (osPathJoin a pairs[i].1) (dstDataPath dirs (idx + i)) then
             RunError.convError (osPathJoin b pairs[i].2) (dstMaskPath dirs (idx + i))
           else
             RunError.convError (osPathJoin a pairs[i].1) (dstDataPath dirs (idx + i))))
  | [], i, idx, o, dj, hi, _, _ => absurd hi (by simp)
  | (df, mf) :: rest, 0, idx, o, dj, hi, hok, hfail => by
    simp only [List.getElem_cons_zero, Nat.add_zero] at hfail ⊢
    rcases hfail with h1 | ⟨h1, h2⟩
    · simp [convertLoop, convert_tif_to_nifti, h1, loopWrites]
    · simp [convertLoop, convert_tif_to_nifti, h1, h2, OutFS.write, loopWrites]
  | (df, mf) :: rest, j + 1, idx, o, dj, hi, hok, hfail => by
    simp only [List.take_succ_cons, loopOk, pairOk, Bool.and_eq_true] at hok
    obtain ⟨⟨h1, h2⟩, h3⟩ := hok
    simp only [List.getElem_cons_succ] at hfail
    have hadd : idx + (j + 1) = idx + 1 + j := by omega
    rw [hadd] at hfail
    have hj : j < rest.length := Nat.lt_of_succ_lt_succ hi
    simp only [convertLoop, convert_tif_to_nifti, h1, h2, if_true]
    rw [convertLoop_fail_at w a b dirs rest j (idx + 1) _ _ hj h3 hfail]
    have hfn : ((fun k => trainingEntry (idx + k)) ∘ Nat.succ) =
        (fun k => trainingEntry (idx + 1 + k)) := by
      funext k
      simp only [Function.comp_apply]
      congr 1
      omega
    simp only [OutFS.write, loopWrites, List.take_succ_cons, List.getElem_cons_succ,
      List.append_assoc, List.cons_append, List.nil_append, List.range_succ_eq_map,
      List.map_cons, List.map_map, Nat.add_zero, hadd]
    rw [hfn]
    simp only [trainingEntry]

theorem run_of_gfl (w : World) (o : OutFS) (a b out : FPath) (name : String)
    (imgs msks : List String)
    (hga : get_file_list w a ".tif" = .ok imgs)
    (hgb : get_file_list w b ".tif" = .ok msks)
    (hlen : imgs.length = msks.length) :
    convert_to_nnunet_format w o a b out name =
      (match convertLoop w a b (nnDirsFor out name) (imgs.zip msks) 0
          (initOut o out name) (initSkeleton name) with
       | ((o4, _dj), some e) => (o4, some e)
       | ((o4, dj), none) =>
         (o4.write (djsonPath out name) (.json { dj with numTraining := imgs.length }), none)) := by
  have hinit : (create_dataset_json
      (setup_directories (o.mkdir (osPathJoin out name)) (osPathJoin out name)).1
      (osPathJoin out name) ["CT"] [("0", "background"), ("1", "roi")] name).1 =
      initOut o out name := by
    simp [create_dataset_json, setup_directories, OutFS.mkdir, OutFS.write, initOut,
      nnDirsFor, datasetDir, djsonPath, initSkeleton, OutFS.empty]
  simp only [convert_to_nnunet_format, hga, hgb, hlen, ne_eq, not_true_eq_false,
    if_false, hinit]
  rfl

theorem createInit_eq (o : OutFS) (out : FPath) (name : String) :
    (create_dataset_json
      (setup_directories (o.mkdir (osPathJoin out name)) (osPathJoin out name)).1
      (osPathJoin out name) ["CT"] [("0", "background"), ("1", "roi")] name).1 =
      initOut o out name := by
  simp [create_dataset_json, setup_directories, OutFS.mkdir, OutFS.write, initOut,
    nnDirsFor, datasetDir, djsonPath, initSkeleton, OutFS.empty]

theorem run_gfl_a_error (w : World) (o : OutFS) (a b out : FPath) (name : String)
    (e : RunError) (hga : get_file_list w a ".tif" = .error e) :
    convert_to_nnunet_format w o a b out name = (initOut o out name, some e) := by
  simp only [convert_to_nnunet_format, hga, createInit_eq]

theorem run_gfl_b_error (w : World) (o : OutFS) (a b out : FPath) (name : String)
    (imgs : List String) (e : RunError)
    (hga : get_file_list w a ".tif" = .ok imgs)
    (hgb : get_file_list w b ".tif" = .error e) :
    convert_to_nnunet_format w o a b out name = (initOut o out name, some e) := by
  simp only [convert_to_nnunet_format, hga, hgb, createInit_eq]

theorem run_mismatch (w : World) (o : OutFS) (a b out : FPath) (name : String)
    (imgs msks : List String)
    (hga : get_file_list w a ".tif" = .ok imgs)
    (hgb : get_file_list w b ".tif" = .ok msks)
    (hne : imgs.length ≠ msks.length) :
    convert_to_nnunet_format w o a b out name =
      (initOut o out name,
       some (.valueError ("Number of images (" ++ toString imgs.length ++
         ") and masks (" ++ toString msks.length ++ ") do not match."))) := by
  simp only [convert_to_nnunet_format, hga, hgb, createInit_eq, hne, ne_eq,
    not_false_eq_true, if_true]

theorem run_ok (w : World) (o : OutFS) (a b out : FPath) (name : String)
    (imgs msks : List String)
    (hga : get_file_list w a ".tif" = .ok imgs)
    (hgb : get_file_list w b ".tif" = .ok msks)
    (hlen : imgs.length = msks.length)
    (hloop : loopOk w a b (nnDirsFor out name) (imgs.zip msks) 0 = true) :
    convert_to_nnunet_format w o a b out name =
      (⟨(initOut o out name).dirsMade,
        (initOut o out name).writes ++
          loopWrites a b (nnDirsFor out name) (imgs.zip msks) 0 ++
          [(djsonPath out name, .json (finalJson name imgs.length))]⟩, none) := by
  rw [run_of_gfl w o a b out name imgs msks hga hgb hlen,
    convertLoop_ok w a b (nnDirsFor out name) (imgs.zip msks) 0 _ _ hloop]
  have hzlen : (imgs.zip msks).length = imgs.length := by
    simp [List.length_zip, hlen]
  simp [OutFS.write, finalJson, initSkeleton, hzlen, List.append_assoc,
    create_dataset_json, OutFS.empty, Nat.zero_add]

theorem run_none_inv (w : World) (o : OutFS) (a b out : FPath) (name : String)
    (h : (convert_to_nnunet_format w o a b out name).2 = none) :
    ∃ imgs msks, get_file_list w a ".tif" = .ok imgs ∧
      get_file_list w b ".tif" = .ok msks ∧ imgs.length = msks.length ∧
      loopOk w a b (nnDirsFor out name) (imgs.zip msks) 0 = true := by
  cases hga : get_file_list w a ".tif" with
  | error e => rw [run_gfl_a_error w o a b out name e hga] at h; exact absurd h (by simp)
  | ok imgs =>
  cases hgb : get_file_list w b ".tif" with
  | error e => rw [run_gfl_b_error w o a b out name imgs e hga hgb] at h
               exact absurd h (by simp)
  | ok msks =>
  by_cases hlen : imgs.length = msks.length
  · by_cases hloop : loopOk w a b (nnDirsFor out name) (imgs.zip msks) 0 = true
    · exact ⟨imgs, msks, rfl, rfl, hlen, hloop⟩
    · exfalso
      have hsome := convertLoop_isSome_of_not_ok w a b (nnDirsFor out name)
        (imgs.zip msks) 0 (initOut o out name) (initSkeleton name) (by simpa using hloop)
      rw [run_of_gfl w o a b out name imgs msks hga hgb hlen] at h
      rcases hclr : convertLoop w a b (nnDirsFor out name) (imgs.zip msks) 0
          (initOut o out name) (initSkeleton name) with ⟨⟨o4, dj⟩, err⟩
      rw [hclr] at h hsome
      cases err with
      | none => exact absurd hsome (by simp)
      | some e => exact absurd h (by simp)
  · rw [run_mismatch w o a b out name imgs msks hga hgb hlen] at h
    exact absurd h (by simp)

theorem lastWrite_last (ws : List (FPath × FileData)) (p : FPath) (v : FileData) :
    lastWrite (ws ++ [(p, v)]) p = some v := by
  rw [lastWrite_append]
  simp [lastWrite_singleton_self]

theorem lastWrite_loopWrites_ne (a b : FPath) (dirs : NnDirs) (pairs : List (String × String))
    (idx : Nat) (base : FPath) (fname : String)
    (htr : dirs.imagesTr = osPathJoin base "imagesTr")
    (hlb : dirs.labelsTr = osPathJoin base "labelsTr") :
    lastWrite (loopWrites a b dirs pairs idx) (osPathJoin base fname) = none := by
  apply lastWrite_eq_none
  intro e he
  rcases loopWrites_paths a b dirs pairs idx e he with ⟨s, hs⟩ | ⟨s, hs⟩
  · rw [hs, htr]
    exact subPath_ne_file base "imagesTr" s fname
  · rw [hs, hlb]
    exact subPath_ne_file base "labelsTr" s fname

theorem mem_loopWrites (a b : FPath) (dirs : NnDirs) :
    ∀ (pairs : List (String × String)) (idx i : Nat) (hi : i < pairs.length),
      (dstDataPath dirs (idx + i), FileData.image (osPathJoin a pairs[i].1)) ∈
        loopWrites a b dirs pairs idx ∧
      (dstMaskPath dirs (idx + i), FileData.image (osPathJoin b pairs[i].2)) ∈
        loopWrites a b dirs pairs idx
  | [], idx, i, hi => absurd hi (by simp)
  | p :: rest, idx, 0, hi => by
    simp [loopWrites]
  | p :: rest, idx, i + 1, hi => by
    have hj : i < rest.length := Nat.lt_of_succ_lt_succ hi
    have hadd : idx + (i + 1) = idx + 1 + i := by omega
    have ih := mem_loopWrites a b dirs rest (idx + 1) i hj
    simp only [List.getElem_cons_succ, hadd, loopWrites, List.mem_cons]
    exact ⟨Or.inr (Or.inr ih.1), Or.inr (Or.inr ih.2)⟩

theorem convertLoop_congr (w1 w2 : World) (a b : FPath) (hc : w1.convOk = w2.convOk) :
    ∀ (dirs : NnDirs) (pairs : List (String × String)) (idx : Nat) (o : OutFS)
      (dj : DatasetJson),
      convertLoop w1 a b dirs pairs idx o dj = convertLoop w2 a b dirs pairs idx o dj
  | dirs, [], idx, o, dj => rfl
  | dirs, (df, mf) :: rest, idx, o, dj => by
    simp only [convertLoop, convert_tif_to_nifti, hc]
    cases hw : w2.convOk (osPathJoin a df) (dstDataPath dirs idx)
    · rfl
    · cases hw2 : w2.convOk (osPathJoin b mf) (dstMaskPath dirs idx)
      · rfl
      · exact convertLoop_congr w1 w2 a b hc dirs rest (idx + 1) _ _

theorem run_congr (w1 w2 : World) (o : OutFS) (a b out : FPath) (name : String)
    (hc : w1.convOk = w2.convOk)
    (hd : ∀ p, (w1.fs p).isDir = (w2.fs p).isDir)
    (hl : ∀ p, (w1.fs p).listing.Perm (w2.fs p).listing) :
    convert_to_nnunet_format w1 o a b out name = convert_to_nnunet_format w2 o a b out name := by
  have hg : ∀ d, get_file_list w1 d ".tif" = get_file_list w2 d ".tif" :=
    fun d => get_file_list_congr w1 w2 d ".tif" (hd d) (hl d)
  simp only [convert_to_nnunet_format, hg, convertLoop_congr w1 w2 a b hc]

/-- Claim C7: for every existing directory and extension filter, get_file_list
returns exactly the names in that directory ending with the filter compared
case-insensitively, sorted lexicographically as strings (it does not recurse:
only the immediate listing of the directory is consulted); for every path that is not a
valid directory it raises a directory-not-found error. -/
theorem claim_C7 (w : World) (d : FPath) (ext : String) :
    ((w.fs d).isDir = false →
      get_file_list w d ext =
        .error (.fileNotFound ("Directory not found: " ++ d.render))) ∧
    (∀ l, get_file_list w d ext = .ok l →
      (w.fs d).isDir = true ∧
      l.Perm ((w.fs d).listing.filter (extFilter ext)) ∧
      l.Sorted (· ≤ ·)) ∧
    ((w.fs d).isDir = true →
      get_file_list w d ext =
        .ok (List.insertionSort pyLeRel ((w.fs d).listing.filter (extFilter ext)))) := by
  refine ⟨fun h => get_file_list_of_isDir_false w d ext (by simp [h]), fun l hl => ?_,
    fun h => get_file_list_of_isDir_true w d ext h⟩
  obtain ⟨hdir, hval⟩ := get_file_list_ok_inv w d ext l hl
  subst hval
  exact ⟨hdir, List.perm_insertionSort pyLeRel _,
    sorted_le_of_sorted_pyLeRel (List.sorted_insertionSort pyLeRel _)⟩

theorem claim_C7_witness :
    get_file_list wNoDirs ["nope"] ".tif" =
      .error (.fileNotFound "Directory not found: nope") ∧
    ((wTwoPairs.fs ["img"]).isDir = true ∧
      (["a.tif", "b.tif"] : List String).Perm
        ((wTwoPairs.fs ["img"]).listing.filter (extFilter ".tif")) ∧
      (["a.tif", "b.tif"] : List String).Sorted (· ≤ ·)) :=
  ⟨(claim_C7 wNoDirs ["nope"] ".tif").1 rfl,
   (claim_C7 wTwoPairs ["img"] ".tif").2.1 ["a.tif", "b.tif"] (by decide)⟩

/-- Claim C1 (amended): if the source image directory does not exist, the run
aborts with a missing-directory error before any image or mask conversion (the
only file written is the skeleton dataset.json); however the dataset directory
tree has already been created and the skeleton manifest already written when
the error is raised. -/
theorem claim_C1 (w : World) (o : OutFS) (a b out : FPath) (name : String)
    (h : (w.fs a).isDir = false) :
    convert_to_nnunet_format w o a b out name =
      (initOut o out name,
       some (.fileNotFound ("Directory not found: " ++ a.render))) ∧
    (initOut o out name).writes =
      o.writes ++ [(djsonPath out name, .json (initSkeleton name))] ∧
    (initOut o out name).dirsMade =
      o.dirsMade ++ [datasetDir out name, (nnDirsFor out name).imagesTr,
        (nnDirsFor out name).labelsTr, (nnDirsFor out name).imagesTs] :=
  ⟨run_gfl_a_error w o a b out name _ (get_file_list_of_isDir_false w a ".tif" h),
   rfl, rfl⟩

theorem claim_C1_witness :
    (convert_to_nnunet_format wNoDirs OutFS.empty ["img"] ["msk"] ["out"]
        "Task001_ROISegmentation" =
      (initOut OutFS.empty ["out"] "Task001_ROISegmentation",
       some (.fileNotFound ("Directory not found: " ++ FPath.render ["img"])))) ∧
    (initOut OutFS.empty ["out"] "Task001_ROISegmentation").writes =
      OutFS.empty.writes ++ [(djsonPath ["out"] "Task001_ROISegmentation",
        .json (initSkeleton "Task001_ROISegmentation"))] ∧
    (initOut OutFS.empty ["out"] "Task001_ROISegmentation").dirsMade =
      OutFS.empty.dirsMade ++ [datasetDir ["out"] "Task001_ROISegmentation",
        (nnDirsFor ["out"] "Task001_ROISegmentation").imagesTr,
        (nnDirsFor ["out"] "Task001_ROISegmentation").labelsTr,
        (nnDirsFor ["out"] "Task001_ROISegmentation").imagesTs] :=
  claim_C1 wNoDirs OutFS.empty ["img"] ["msk"] ["out"] "Task001_ROISegmentation" rfl

theorem claim_C1_counterexample :
    (convert_to_nnunet_format wNoDirs OutFS.empty ["img"] ["msk"] ["out"]
        "Task001_ROISegmentation").2 =
      some (.fileNotFound "Directory not found: img") ∧
    (convert_to_nnunet_format wNoDirs OutFS.empty ["img"] ["msk"] ["out"]
        "Task001_ROISegmentation").1.dirsMade ≠ [] ∧
    (convert_to_nnunet_format wNoDirs OutFS.empty ["img"] ["msk"] ["out"]
        "Task001_ROISegmentation").1.writes ≠ [] := by
  decide

/-- Claim C2: whenever both input directories exist and the enumerated image
and mask counts differ, the run stops with a ValueError whose message cites
both counts, and the only file written is the skeleton dataset.json: no
destination image or mask file has been created. -/
theorem claim_C2 (w : World) (o : OutFS) (a b out : FPath) (name : String)
    (imgs msks : List String)
    (hga : get_file_list w a ".tif" = .ok imgs)
    (hgb : get_file_list w b ".tif" = .ok msks)
    (hne : imgs.length ≠ msks.length) :
    convert_to_nnunet_format w o a b out name =
      (initOut o out name,
       some (.valueError ("Number of images (" ++ toString imgs.length ++
         ") and masks (" ++ toString msks.length ++ ") do not match."))) ∧
    (initOut o out name).writes =
      o.writes ++ [(djsonPath out name, .json (initSkeleton name))] :=
  ⟨run_mismatch w o a b out name imgs msks hga hgb hne, rfl⟩

theorem claim_C2_witness :
    (convert_to_nnunet_format wFiveFour OutFS.empty ["img"] ["msk"] ["out"] "T" =
      (initOut OutFS.empty ["out"] "T",
       some (.valueError ("Number of images (" ++ toString (5 : Nat) ++
         ") and masks (" ++ toString (4 : Nat) ++ ") do not match.")))) ∧
    (initOut OutFS.empty ["out"] "T").writes =
      OutFS.empty.writes ++ [(djsonPath ["out"] "T", .json (initSkeleton "T"))] :=
  claim_C2 wFiveFour OutFS.empty ["img"] ["msk"] ["out"] "T"
    ["a.tif", "b.tif", "c.tif", "d.tif", "e.tif"] ["v.tif", "w.tif", "x.tif", "y.tif"]
    (by decide) (by decide) (by decide)

/-- Claim C3: whenever both filtered input lists have length N and the run
completes without error, the persisted manifest has exactly N training entries
and numTraining = N (for N = 0 the training list is empty). -/
theorem claim_C3 (w : World) (o : OutFS) (a b out : FPath) (name : String)
    (imgs msks : List String) (N : Nat)
    (hga : get_file_list w a ".tif" = .ok imgs)
    (hgb : get_file_list w b ".tif" = .ok msks)
    (hla : imgs.length = N) (hlb : msks.length = N)
    (hrun : (convert_to_nnunet_format w o a b out name).2 = none) :
    OutFS.fileAt (convert_to_nnunet_format w o a b out name).1 (djsonPath out name) =
      some (.json (finalJson name N)) ∧
    (finalJson name N).training.length = N ∧
    (finalJson name N).numTraining = N := by
  obtain ⟨i2, m2, hga2, hgb2, hlen2, hloop2⟩ := run_none_inv w o a b out name hrun
  obtain rfl : imgs = i2 := Except.ok.inj (hga.symm.trans hga2)
  obtain rfl : msks = m2 := Except.ok.inj (hgb.symm.trans hgb2)
  subst hla
  rw [run_ok w o a b out name imgs msks hga hgb hlen2 hloop2]
  refine ⟨?_, by simp [finalJson], rfl⟩
  rw [fileAt_eq_lastWrite]
  exact lastWrite_last _ _ _

theorem claim_C3_witness :
    OutFS.fileAt (convert_to_nnunet_format wTwoPairs OutFS.empty ["img"] ["msk"]
        ["out"] "T").1 (djsonPath ["out"] "T") = some (.json (finalJson "T" 2)) ∧
    (finalJson "T" 2).training.length = 2 ∧
    (finalJson "T" 2).numTraining = 2 :=
  claim_C3 wTwoPairs OutFS.empty ["img"] ["msk"] ["out"] "T"
    ["a.tif", "b.tif"] ["x.tif", "y.TIF"] 2
    (by decide) (by decide) (by decide) (by decide) (by decide)

/-- Claim C5: for every successful run, the persisted manifest satisfies the
invariant that numTraining equals the length of its training entry list. -/
theorem claim_C5 (w : World) (o : OutFS) (a b out : FPath) (name : String)
    (hrun : (convert_to_nnunet_format w o a b out name).2 = none) :
    ∀ dj, OutFS.fileAt (convert_to_nnunet_format w o a b out name).1
        (djsonPath out name) = some (.json dj) →
      dj.numTraining = dj.training.length := by
  obtain ⟨imgs, msks, hga, hgb, hlen, hloop⟩ := run_none_inv w o a b out name hrun
  rw [run_ok w o a b out name imgs msks hga hgb hlen hloop]
  intro dj hdj
  rw [fileAt_eq_lastWrite, lastWrite_last] at hdj
  obtain rfl : finalJson name imgs.length = dj := FileData.json.inj (Option.some.inj hdj)
  simp [finalJson]

theorem claim_C5_witness :
    (convert_to_nnunet_format wTwoPairs OutFS.empty ["img"] ["msk"] ["out"] "T").2 =
      none ∧
    (finalJson "T" 2).numTraining = (finalJson "T" 2).training.length :=
  ⟨by decide,
   claim_C5 wTwoPairs OutFS.empty ["img"] ["msk"] ["out"] "T" (by decide)
     (finalJson "T" 2) (by decide)⟩

/-- Claim C8: for every successful run, regardless of input contents, the
persisted manifest modality map is the constant ("0", "CT") map and its
label map is the constant ("0", "background"), ("1", "roi") map. -/
theorem claim_C8 (w : World) (o : OutFS) (a b out : FPath) (name : String)
    (hrun : (convert_to_nnunet_format w o a b out name).2 = none) :
    ∀ dj, OutFS.fileAt (convert_to_nnunet_format w o a b out name).1
        (djsonPath out name) = some (.json dj) →
      dj.modality = [("0", "CT")] ∧
      dj.labels = [("0", "background"), ("1", "roi")] := by
  obtain ⟨imgs, msks, hga, hgb, hlen, hloop⟩ := run_none_inv w o a b out name hrun
  rw [run_ok w o a b out name imgs msks hga hgb hlen hloop]
  intro dj hdj
  rw [fileAt_eq_lastWrite, lastWrite_last] at hdj
  obtain rfl : finalJson name imgs.length = dj := FileData.json.inj (Option.some.inj hdj)
  constructor <;> rfl

theorem claim_C8_witness :
    (convert_to_nnunet_format wTwoPairs OutFS.empty ["img"] ["msk"] ["out"] "T").2 =
      none ∧
    (finalJson "T" 2).modality = [("0", "CT")] ∧
    (finalJson "T" 2).labels = [("0", "background"), ("1", "roi")] :=
  ⟨by decide,
   claim_C8 wTwoPairs OutFS.empty ["img"] ["msk"] ["out"] "T" (by decide)
     (finalJson "T" 2) (by decide)⟩

/-- Claim C10: for every dataset_name, the persisted manifest has name,
description, reference, licence and release equal to fixed constants and its
task field equal to dataset_name; and dataset_name enters the manifest only
through the task field: the persisted manifest is the canonical finalJson of
its training count, and replacing dataset_name by any other string changes
that manifest in the task field alone, every other field (modality, labels,
tensorImageSize, counts, training and test lists) being independent of it. -/
theorem claim_C10 (w : World) (o : OutFS) (a b out : FPath) (name : String)
    (hrun : (convert_to_nnunet_format w o a b out name).2 = none) :
    ∀ dj, OutFS.fileAt (convert_to_nnunet_format w o a b out name).1
        (djsonPath out name) = some (.json dj) →
      dj.name = "ROI Dataset" ∧
      dj.description = "Converted ROI segmentation dataset" ∧
      dj.reference = "None" ∧
      dj.licence = "None" ∧
      dj.release = "1.0" ∧
      dj.task = name ∧
      dj = finalJson name dj.numTraining ∧
      (∀ name2 : String, finalJson name2 dj.numTraining = { dj with task := name2 }) := by
  obtain ⟨imgs, msks, hga, hgb, hlen, hloop⟩ := run_none_inv w o a b out name hrun
  rw [run_ok w o a b out name imgs msks hga hgb hlen hloop]
  intro dj hdj
  rw [fileAt_eq_lastWrite, lastWrite_last] at hdj
  obtain rfl : finalJson name imgs.length = dj := FileData.json.inj (Option.some.inj hdj)
  exact ⟨rfl, rfl, rfl, rfl, rfl, rfl, rfl, fun name2 => rfl⟩

theorem claim_C10_witness :
    (convert_to_nnunet_format wTwoPairs OutFS.empty ["img"] ["msk"] ["out"]
        "MyTask").2 = none ∧
    ((finalJson "MyTask" 2).name = "ROI Dataset" ∧
      (finalJson "MyTask" 2).description = "Converted ROI segmentation dataset" ∧
      (finalJson "MyTask" 2).reference = "None" ∧
      (finalJson "MyTask" 2).licence = "None" ∧
      (finalJson "MyTask" 2).release = "1.0" ∧
      (finalJson "MyTask" 2).task = "MyTask") ∧
    finalJson "MyTask" 2 = finalJson "MyTask" (finalJson "MyTask" 2).numTraining ∧
    finalJson "Task999_Other" (finalJson "MyTask" 2).numTraining =
      { finalJson "MyTask" 2 with task := "Task999_Other" } := by
  have H := claim_C10 wTwoPairs OutFS.empty ["img"] ["msk"] ["out"] "MyTask"
    (by decide) (finalJson "MyTask" 2) (by decide)
  exact ⟨by decide, ⟨H.1, H.2.1, H.2.2.1, H.2.2.2.1, H.2.2.2.2.1, H.2.2.2.2.2.1⟩,
    H.2.2.2.2.2.2.1, H.2.2.2.2.2.2.2 "Task999_Other"⟩

theorem lastWrite_absorb (y delta : List (FPath × FileData)) (p : FPath)
    (x : List (FPath × FileData)) (hx : x = y ++ delta) :
    lastWrite (x ++ delta) p = lastWrite x p := by
  subst hx
  rw [lastWrite_append (y ++ delta) delta p]
  cases h : lastWrite delta p
  · simp [h]
  · rw [lastWrite_append y delta p]
    simp [h]

theorem lastWrite_skel (o : OutFS) (out : FPath) (name : String)
    (ws2 : List (FPath × FileData))
    (h2 : ∀ e ∈ ws2, e.1 ≠ djsonPath out name) :
    lastWrite ((initOut o out name).writes ++ ws2) (djsonPath out name) =
      some (.json (initSkeleton name)) := by
  rw [lastWrite_append, lastWrite_eq_none ws2 _ h2]
  exact lastWrite_last o.writes _ _

/-- Claim C4: in a successful run the i-th position of the zipped sorted lists
is assigned case identifier case i (zero padded to four digits), its training
entry references exactly ./imagesTr/case i 0000.nii.gz and
./labelsTr/case i.nii.gz relative to the dataset root, the i-th sorted source
image and mask are converted to the corresponding destination paths, and the
whole run result is invariant under permuting the filesystem enumeration
order of any directory listing. -/
theorem claim_C4 (w : World) (o : OutFS) (a b out : FPath) (name : String)
    (imgs msks : List String)
    (hga : get_file_list w a ".tif" = .ok imgs)
    (hgb : get_file_list w b ".tif" = .ok msks)
    (hrun : (convert_to_nnunet_format w o a b out name).2 = none)
    (i : Nat) (hi : i < imgs.length) (hi2 : i < msks.length) :
    OutFS.fileAt (convert_to_nnunet_format w o a b out name).1 (djsonPath out name) =
      some (.json (finalJson name imgs.length)) ∧
    (finalJson name imgs.length).training[i]? =
      some ⟨"./imagesTr/" ++ caseId i ++ "_0000.nii.gz",
            "./labelsTr/" ++ caseId i ++ ".nii.gz"⟩ ∧
    (dstDataPath (nnDirsFor out name) i, FileData.image (osPathJoin a imgs[i])) ∈
      (convert_to_nnunet_format w o a b out name).1.writes ∧
    (dstMaskPath (nnDirsFor out name) i, FileData.image (osPathJoin b msks[i])) ∈
      (convert_to_nnunet_format w o a b out name).1.writes ∧
    (∀ w2 : World, w2.convOk = w.convOk →
      (∀ p, (w2.fs p).isDir = (w.fs p).isDir) →
      (∀ p, (w2.fs p).listing.Perm (w.fs p).listing) →
      convert_to_nnunet_format w2 o a b out name =
        convert_to_nnunet_format w o a b out name) := by
  obtain ⟨i2, m2, hga2, hgb2, hlen2, hloop2⟩ := run_none_inv w o a b out name hrun
  obtain rfl : imgs = i2 := Except.ok.inj (hga.symm.trans hga2)
  obtain rfl : msks = m2 := Except.ok.inj (hgb.symm.trans hgb2)
  have hizip : i < (imgs.zip msks).length := by
    simp only [List.length_zip]
    omega
  have hmem := mem_loopWrites a b (nnDirsFor out name) (imgs.zip msks) 0 i hizip
  have hmem1 := hmem.1
  have hmem2 := hmem.2
  simp only [Nat.zero_add, List.getElem_zip] at hmem1 hmem2
  rw [run_ok w o a b out name imgs msks hga hgb hlen2 hloop2]
  refine ⟨?_, ?_, ?_, ?_, ?_⟩
  · rw [fileAt_eq_lastWrite]
    exact lastWrite_last _ _ _
  · simp [finalJson, trainingEntry, List.getElem?_map, List.getElem?_range, hi]
  · simp only [List.mem_append]
    exact Or.inl (Or.inr hmem1)
  · simp only [List.mem_append]
    exact Or.inl (Or.inr hmem2)
  · intro w2 hc hd hl
    rw [run_congr w2 w o a b out name hc hd hl,
      run_ok w o a b out name imgs msks hga hgb hlen2 hloop2]

theorem claim_C4_witness :
    (OutFS.fileAt (convert_to_nnunet_format wTwoPairs OutFS.empty ["img"] ["msk"]
        ["out"] "T").1 (djsonPath ["out"] "T") = some (.json (finalJson "T" 2)) ∧
      (finalJson "T" 2).training[1]? =
        some ⟨"./imagesTr/" ++ caseId 1 ++ "_0000.nii.gz",
              "./labelsTr/" ++ caseId 1 ++ ".nii.gz"⟩ ∧
      (dstDataPath (nnDirsFor ["out"] "T") 1,
        FileData.image (osPathJoin ["img"] "b.tif")) ∈
        (convert_to_nnunet_format wTwoPairs OutFS.empty ["img"] ["msk"]
          ["out"] "T").1.writes ∧
      (dstMaskPath (nnDirsFor ["out"] "T") 1,
        FileData.image (osPathJoin ["msk"] "y.TIF")) ∈
        (convert_to_nnunet_format wTwoPairs OutFS.empty ["img"] ["msk"]
          ["out"] "T").1.writes ∧
      (∀ w2 : World, w2.convOk = wTwoPairs.convOk →
        (∀ p, (w2.fs p).isDir = (wTwoPairs.fs p).isDir) →
        (∀ p, (w2.fs p).listing.Perm (wTwoPairs.fs p).listing) →
        convert_to_nnunet_format w2 OutFS.empty ["img"] ["msk"] ["out"] "T" =
          convert_to_nnunet_format wTwoPairs OutFS.empty ["img"] ["msk"] ["out"] "T")) ∧
    convert_to_nnunet_format wTwoPairsPerm OutFS.empty ["img"] ["msk"] ["out"] "T" =
      convert_to_nnunet_format wTwoPairs OutFS.empty ["img"] ["msk"] ["out"] "T" := by
  have H := claim_C4 wTwoPairs OutFS.empty ["img"] ["msk"] ["out"] "T"
    ["a.tif", "b.tif"] ["x.tif", "y.TIF"] (by decide) (by decide) (by decide)
    1 (by decide) (by decide)
  refine ⟨H, ?_⟩
  exact H.2.2.2.2 wTwoPairsPerm rfl
    (fun p => by
      by_cases h1 : p = ["img"]
      · subst h1
        decide
      · by_cases h2 : p = ["msk"]
        · subst h2
          decide
        · simp [wTwoPairsPerm, wTwoPairs, h1, h2])
    (fun p => by
      by_cases h1 : p = ["img"]
      · subst h1
        decide
      · by_cases h2 : p = ["msk"]
        · subst h2
          decide
        · simp [wTwoPairsPerm, wTwoPairs, h1, h2])

/-- Claim C6: when the conversion of the i-th image or mask of the zipped
sorted lists fails (all earlier pairs succeeding), the run aborts at that
pair: the writes consist exactly of the skeleton manifest, the converted
files of pairs 0..i-1 (left in place, no cleanup) and, when the image of
pair i converted but its mask failed, that one image; no later pair is
converted, no final manifest is written, and the on-disk dataset.json is
left as the start-of-run skeleton with empty training list. -/
theorem claim_C6 (w : World) (o : OutFS) (a b out : FPath) (name : String)
    (imgs msks : List String)
    (hga : get_file_list w a ".tif" = .ok imgs)
    (hgb : get_file_list w b ".tif" = .ok msks)
    (hlen : imgs.length = msks.length)
    (i : Nat) (hi : i < (imgs.zip msks).length)
    (hok : loopOk w a b (nnDirsFor out name) ((imgs.zip msks).take i) 0 = true)
    (hfail :
      w.convOk (osPathJoin a (imgs.zip msks)[i].1)
          (dstDataPath (nnDirsFor out name) i) = false ∨
        (w.convOk (osPathJoin a (imgs.zip msks)[i].1)
            (dstDataPath (nnDirsFor out name) i) = true ∧
         w.convOk (osPathJoin b (imgs.zip msks)[i].2)
            (dstMaskPath (nnDirsFor out name) i) = false)) :
    convert_to_nnunet_format w o a b out name =
      (⟨(initOut o out name).dirsMade,
        (initOut o out name).writes ++
          loopWrites a b (nnDirsFor out name) ((imgs.zip msks).take i) 0 ++
          (if w.convOk (osPathJoin a (imgs.zip msks)[i].1)
              (dstDataPath (nnDirsFor out name) i) then
            [(dstDataPath (nnDirsFor out name) i,
              FileData.image (osPathJoin a (imgs.zip msks)[i].1))]
          else [])⟩,
       some (if w.convOk (osPathJoin a (imgs.zip msks)[i].1)
              (dstDataPath (nnDirsFor out name) i) then
           RunError.convError (osPathJoin b (imgs.zip msks)[i].2)
             (dstMaskPath (nnDirsFor out name) i)
         else
           RunError.convError (osPathJoin a (imgs.zip msks)[i].1)
             (dstDataPath (nnDirsFor out name) i))) ∧
    OutFS.fileAt (convert_to_nnunet_format w o a b out name).1 (djsonPath out name) =
      some (.json (initSkeleton name)) := by
  have H := convertLoop_fail_at w a b (nnDirsFor out name) (imgs.zip msks) i 0
    (initOut o out name) (initSkeleton name) hi hok
    (by simpa only [Nat.zero_add] using hfail)
  simp only [Nat.zero_add] at H
  have hrun_eq : convert_to_nnunet_format w o a b out name =
      (⟨(initOut o out name).dirsMade,
        (initOut o out name).writes ++
          loopWrites a b (nnDirsFor out name) ((imgs.zip msks).take i) 0 ++
          (if w.convOk (osPathJoin a (imgs.zip msks)[i].1)
              (dstDataPath (nnDirsFor out name) i) then
            [(dstDataPath (nnDirsFor out name) i,
              FileData.image (osPathJoin a (imgs.zip msks)[i].1))]
          else [])⟩,
       some (if w.convOk (osPathJoin a (imgs.zip msks)[i].1)
              (dstDataPath (nnDirsFor out name) i) then
           RunError.convError (osPathJoin b (imgs.zip msks)[i].2)
             (dstMaskPath (nnDirsFor out name) i)
         else
           RunError.convError (osPathJoin a (imgs.zip msks)[i].1)
             (dstDataPath (nnDirsFor out name) i))) := by
    rw [run_of_gfl w o a b out name imgs msks hga hgb hlen, H]
  refine ⟨hrun_eq, ?_⟩
  rw [hrun_eq]
  rw [fileAt_eq_lastWrite]
  rw [List.append_assoc]
  apply lastWrite_skel
  intro e he
  rcases List.mem_append.mp he with he1 | he2
  · rcases loopWrites_paths a b (nnDirsFor out name) _ 0 e he1 with ⟨s, hs⟩ | ⟨s, hs⟩
    · rw [hs]
      exact subPath_ne_file (datasetDir out name) "imagesTr" s "dataset.json"
    · rw [hs]
      exact subPath_ne_file (datasetDir out name) "labelsTr" s "dataset.json"
  · by_cases hcv : w.convOk (osPathJoin a (imgs.zip msks)[i].1)
        (dstDataPath (nnDirsFor out name) i) = true
    · rw [if_pos hcv] at he2
      rcases List.mem_singleton.mp he2 with rfl
      exact subPath_ne_file (datasetDir out name) "imagesTr" _ "dataset.json"
    · rw [if_neg hcv] at he2
      exact absurd he2 (List.not_mem_nil e)

theorem claim_C6_witness :
    (convert_to_nnunet_format wMaskFail OutFS.empty ["img"] ["msk"] ["out"] "T" =
      (⟨(initOut OutFS.empty ["out"] "T").dirsMade,
        (initOut OutFS.empty ["out"] "T").writes ++
          loopWrites ["img"] ["msk"] (nnDirsFor ["out"] "T")
            (((["a.tif", "b.tif"] : List String).zip
              (["x.tif", "y.tif"] : List String)).take 1) 0 ++
          (if wMaskFail.convOk
              (osPathJoin ["img"] ((["a.tif", "b.tif"] : List String).zip
                (["x.tif", "y.tif"] : List String))[1].1)
              (dstDataPath (nnDirsFor ["out"] "T") 1) then
            [(dstDataPath (nnDirsFor ["out"] "T") 1,
              FileData.image (osPathJoin ["img"] ((["a.tif", "b.tif"] : List String).zip
                (["x.tif", "y.tif"] : List String))[1].1))]
          else [])⟩,
       some (if wMaskFail.convOk
              (osPathJoin ["img"] ((["a.tif", "b.tif"] : List String).zip
                (["x.tif", "y.tif"] : List String))[1].1)
              (dstDataPath (nnDirsFor ["out"] "T") 1) then
           RunError.convError
             (osPathJoin ["msk"] ((["a.tif", "b.tif"] : List String).zip
                (["x.tif", "y.tif"] : List String))[1].2)
             (dstMaskPath (nnDirsFor ["out"] "T") 1)
         else
           RunError.convError
             (osPathJoin ["img"] ((["a.tif", "b.tif"] : List String).zip
                (["x.tif", "y.tif"] : List String))[1].1)
             (dstDataPath (nnDirsFor ["out"] "T") 1)))) ∧
    OutFS.fileAt (convert_to_nnunet_format wMaskFail OutFS.empty ["img"] ["msk"]
        ["out"] "T").1 (djsonPath ["out"] "T") = some (.json (initSkeleton "T")) :=
  claim_C6 wMaskFail OutFS.empty ["img"] ["msk"] ["out"] "T"
    ["a.tif", "b.tif"] ["x.tif", "y.tif"] (by decide) (by decide) (by decide)
    1 (by decide) (by decide) (by decide)

/-- Claim C9: re-running the full conversion with the same inputs over the
output state of a successful run succeeds again (pre-existing directories
and files are overwritten, never an error), and leaves the same final state:
every path holds the same content and the same set of directories has been
provisioned. -/
theorem claim_C9 (w : World) (o : OutFS) (a b out : FPath) (name : String)
    (hrun : (convert_to_nnunet_format w o a b out name).2 = none) :
    (convert_to_nnunet_format w (convert_to_nnunet_format w o a b out name).1
        a b out name).2 = none ∧
    (∀ p, OutFS.fileAt (convert_to_nnunet_format w
        (convert_to_nnunet_format w o a b out name).1 a b out name).1 p =
      OutFS.fileAt (convert_to_nnunet_format w o a b out name).1 p) ∧
    (∀ d, d ∈ (convert_to_nnunet_format w
        (convert_to_nnunet_format w o a b out name).1 a b out name).1.dirsMade ↔
      d ∈ (convert_to_nnunet_format w o a b out name).1.dirsMade) := by
  obtain ⟨imgs, msks, hga, hgb, hlen, hloop⟩ := run_none_inv w o a b out name hrun
  have h1 := run_ok w o a b out name imgs msks hga hgb hlen hloop
  have h2 := run_ok w (convert_to_nnunet_format w o a b out name).1
    a b out name imgs msks hga hgb hlen hloop
  refine ⟨by rw [h2], fun p => ?_, fun d => ?_⟩
  · rw [h2]
    rw [fileAt_eq_lastWrite, fileAt_eq_lastWrite]
    have hx : (convert_to_nnunet_format w o a b out name).1.writes =
        o.writes ++ ((djsonPath out name, FileData.json (initSkeleton name)) ::
          (loopWrites a b (nnDirsFor out name) (imgs.zip msks) 0 ++
            [(djsonPath out name, FileData.json (finalJson name imgs.length))])) := by
      rw [h1]
      simp [initOut, List.append_assoc]
    have hgoal : ((convert_to_nnunet_format w o a b out name).1.writes ++
          [(djsonPath out name, FileData.json (initSkeleton name))] ++
          loopWrites a b (nnDirsFor out name) (imgs.zip msks) 0 ++
          [(djsonPath out name, FileData.json (finalJson name imgs.length))]) =
        (convert_to_nnunet_format w o a b out name).1.writes ++
          ((djsonPath out name, FileData.json (initSkeleton name)) ::
            (loopWrites a b (nnDirsFor out name) (imgs.zip msks) 0 ++
              [(djsonPath out name, FileData.json (finalJson name imgs.length))])) := by
      simp [List.append_assoc]
    show lastWrite ((convert_to_nnunet_format w o a b out name).1.writes ++
        [(djsonPath out name, FileData.json (initSkeleton name))] ++
        loopWrites a b (nnDirsFor out name) (imgs.zip msks) 0 ++
        [(djsonPath out name, FileData.json (finalJson name imgs.length))]) p =
      lastWrite (convert_to_nnunet_format w o a b out name).1.writes p
    rw [hgoal]
    exact lastWrite_absorb o.writes _ p _ hx
  · rw [h2, h1]
    simp only [initOut, List.mem_append, List.mem_cons]
    constructor
    · intro h
      rcases h with (h | h) | h
      · exact Or.inl h
      · exact Or.inr h
      · exact Or.inr h
    · intro h
      rcases h with h | h
      · exact Or.inl (Or.inl h)
      · exact Or.inl (Or.inr h)

theorem claim_C9_witness :
    (convert_to_nnunet_format wTwoPairs
        (convert_to_nnunet_format wTwoPairs OutFS.empty ["img"] ["msk"] ["out"] "T").1
        ["img"] ["msk"] ["out"] "T").2 = none ∧
    OutFS.fileAt (convert_to_nnunet_format wTwoPairs
        (convert_to_nnunet_format wTwoPairs OutFS.empty ["img"] ["msk"] ["out"] "T").1
        ["img"] ["msk"] ["out"] "T").1 (djsonPath ["out"] "T") =
      OutFS.fileAt (convert_to_nnunet_format wTwoPairs OutFS.empty ["img"] ["msk"]
        ["out"] "T").1 (djsonPath ["out"] "T") ∧
    (datasetDir ["out"] "T" ∈ (convert_to_nnunet_format wTwoPairs
        (convert_to_nnunet_format wTwoPairs OutFS.empty ["img"] ["msk"] ["out"] "T").1
        ["img"] ["msk"] ["out"] "T").1.dirsMade ↔
      datasetDir ["out"] "T" ∈ (convert_to_nnunet_format wTwoPairs OutFS.empty
        ["img"] ["msk"] ["out"] "T").1.dirsMade) := by
  have H := claim_C9 wTwoPairs OutFS.empty ["img"] ["msk"] ["out"] "T" (by decide)
  exact ⟨H.1, H.2.1 (djsonPath ["out"] "T"), H.2.2 (datasetDir ["out"] "T")⟩
